import Mathlib

/-!
# Blinky (tut/1-blinky/phase3/blinky.c)

A shallow embedding of the bare-metal blink program: the three GPIO register
pointers, the busy-wait delay `spin_sleep_us` / `spin_sleep_ms`, and `kmain`
(startup sequence followed by the unbounded blink loop).

`unsigned int` values are natural numbers below `2 ^ 32`; arithmetic that can
wrap (`us * 6`, `ms * 1000`, `i++`) is reduced modulo `2 ^ 32` explicitly.
Every volatile access and every `nop` is recorded, in program order, in the
machine's trace.
-/

namespace Blinky

/-! ## Memory map -/

/-- Source: `#define GPIO_BASE (0x3F000000 + 0x200000)`. -/
def GPIO_BASE : Nat := 0x3F000000 + 0x200000

/-- Source: `volatile unsigned *GPIO_FSEL1 = (volatile unsigned *)(GPIO_BASE + 0x04);` -/
def GPIO_FSEL1 : Nat := GPIO_BASE + 0x04

/-- Source: `volatile unsigned *GPIO_SET0 = (volatile unsigned *)(GPIO_BASE + 0x1C);` -/
def GPIO_SET0 : Nat := GPIO_BASE + 0x1C

/-- Source: `volatile unsigned *GPIO_CLR0 = (volatile unsigned *)(GPIO_BASE + 0x28);` -/
def GPIO_CLR0 : Nat := GPIO_BASE + 0x28

/-! ## Observable events and machine state -/

/-- One observable step of the program: a volatile load, a volatile store, or
one execution of `asm volatile("nop")`. -/
inductive Event where
  | load (addr val : Nat)
  | store (addr val : Nat)
  | nop
  deriving DecidableEq, Repr

/-- The state the program acts on: the word held by the function-select
register, the output latch of pins 0..31 (bit `Q` is the level of pin `Q`),
and the events performed so far, oldest first. -/
structure Machine where
  fsel1 : Nat
  level : Nat
  trace : List Event
  deriving DecidableEq, Repr

/-- Modelled from the spec: the peripheral's answer to a volatile load, which
the C source does not contain. The function-select register is ordinary
read/write storage; the set and clear registers are write-only, so the word a
load from them returns is not determined by the program and is supplied by
`rd`, indexed by the number of events performed before the load. -/
def load (rd : Nat → Nat) (addr : Nat) (m : Machine) : Nat × Machine :=
  let v := if addr = GPIO_FSEL1 then m.fsel1 else rd m.trace.length
  (v, { m with trace := m.trace ++ [Event.load addr v] })

/-- Modelled from the spec: the peripheral's reaction to a volatile store,
which the C source does not contain. A store to the function-select register
replaces its word; a store to the set register drives high exactly the pins
whose bit is 1 in the stored word; a store to the clear register drives low
exactly the pins whose bit is 1 in the stored word. -/
def store (addr val : Nat) (m : Machine) : Machine :=
  let t := m.trace ++ [Event.store addr val]
  if addr = GPIO_FSEL1 then { m with fsel1 := val, trace := t }
  else if addr = GPIO_SET0 then { m with level := m.level ||| val, trace := t }
  else if addr = GPIO_CLR0 then
    { m with level := m.level ^^^ (m.level &&& val), trace := t }
  else { m with trace := t }

/-- Source: `asm volatile("nop");` -/
def nop (m : Machine) : Machine :=
  { m with trace := m.trace ++ [Event.nop] }

/-! ## Timing primitive -/

/-- The `for` loop of `spin_sleep_us`:
`for (unsigned int i = 0; i < us * 6; i++) { asm volatile("nop"); }`,
entered with loop variable `i`. `fuel` bounds the number of loop tests;
`none` means the bound was reached before the loop exited. -/
def spin_sleep_us_loop (us : Nat) : Nat → Nat → Machine → Option Machine
  | 0, _, _ => none
  | fuel + 1, i, m =>
    if i < (us * 6) % 2 ^ 32 then
      spin_sleep_us_loop us fuel ((i + 1) % 2 ^ 32) (nop m)
    else some m

/-- Source: `static void spin_sleep_us(unsigned int us)` -/
def spin_sleep_us (fuel us : Nat) (m : Machine) : Option Machine :=
  spin_sleep_us_loop us fuel 0 m

/-- Source: `static void spin_sleep_ms(unsigned int ms) { spin_sleep_us(ms * 1000); }` -/
def spin_sleep_ms (fuel ms : Nat) (m : Machine) : Option Machine :=
  spin_sleep_us fuel ((ms * 1000) % 2 ^ 32) m

/-! ## Blink controller -/

/-- Statement `*GPIO_FSEL1 = *GPIO_FSEL1 | (0b001 << 18);` -/
def kmain_fsel (rd : Nat → Nat) (m : Machine) : Machine :=
  let r := load rd GPIO_FSEL1 m
  store GPIO_FSEL1 (r.1 ||| (0b001 <<< 18)) r.2

/-- Statement `*GPIO_CLR0 |= (1 << 16);` -/
def kmain_clr (rd : Nat → Nat) (m : Machine) : Machine :=
  let r := load rd GPIO_CLR0 m
  store GPIO_CLR0 (r.1 ||| (1 <<< 16)) r.2

/-- Statement `*GPIO_SET0 |= (1 << 16);` -/
def kmain_set (rd : Nat → Nat) (m : Machine) : Machine :=
  let r := load rd GPIO_SET0 m
  store GPIO_SET0 (r.1 ||| (1 <<< 16)) r.2

/-- The statements of `kmain` before `while (1)`. -/
def kmain_startup (rd : Nat → Nat) (m : Machine) : Machine :=
  kmain_clr rd (kmain_fsel rd m)

/-- One pass through the body of `while (1) { ... }`. -/
def kmain_loop_body (rd : Nat → Nat) (fuel : Nat) (m : Machine) : Option Machine :=
  (spin_sleep_ms fuel 500 (kmain_set rd m)).bind fun m3 =>
    spin_sleep_ms fuel 500 (kmain_clr rd m3)

/-- The first `n` passes through `while (1) { ... }`. -/
def kmain_loop (rd : Nat → Nat) (fuel : Nat) : Nat → Machine → Option Machine
  | 0, m => some m
  | n + 1, m => (kmain_loop_body rd fuel m).bind (kmain_loop rd fuel n)

/-- Source: `int kmain(void)`, observed up to the end of the `n`-th loop pass (the
function itself never returns). -/
def kmain (rd : Nat → Nat) (fuel n : Nat) (m : Machine) : Option Machine :=
  kmain_loop rd fuel n (kmain_startup rd m)

/-! ## Observations on states and traces -/

/-- The 3-bit function field of pin 16 inside a function-select word
(bits 18..20). -/
def field16 (w : Nat) : Nat := (w >>> 18) % 8

/-- Whether an event is a store. -/
def Event.isStore : Event → Bool
  | Event.store _ _ => true
  | _ => false

/-- Whether an event is a store to the given address. -/
def Event.isStoreTo (a : Nat) : Event → Bool
  | Event.store b _ => b == a
  | _ => false

/-- The address of a register access; `none` for a `nop`. -/
def Event.addr : Event → Option Nat
  | Event.load a _ => some a
  | Event.store a _ => some a
  | Event.nop => none

/-- The number of `nop` executions in a trace. -/
def nops (t : List Event) : Nat := t.count Event.nop

/-- The events of one loop pass in which the load from the set register
returns `s` and the load from the clear register returns `c`. -/
def passEvents (s c : Nat) : List Event :=
  [Event.load GPIO_SET0 s, Event.store GPIO_SET0 (s ||| 65536)]
    ++ List.replicate 3000000 Event.nop
    ++ [Event.load GPIO_CLR0 c, Event.store GPIO_CLR0 (c ||| 65536)]
    ++ List.replicate 3000000 Event.nop

/-- The events of the startup sequence when the function-select register
holds `v` and the load from the clear register returns `r`. -/
def startupEvents (v r : Nat) : List Event :=
  [Event.load GPIO_FSEL1 v, Event.store GPIO_FSEL1 (v ||| 262144),
   Event.load GPIO_CLR0 r, Event.store GPIO_CLR0 (r ||| 65536)]

/-- The events of consecutive loop passes, one pair of load results per pass. -/
def loopEvents : List (Nat × Nat) → List Event
  | [] => []
  | p :: ps => passEvents p.1 p.2 ++ loopEvents ps

/-! ## Helper lemmas -/

theorem kmain_fsel_eq (rd : Nat → Nat) (m : Machine) :
    kmain_fsel rd m =
      { fsel1 := m.fsel1 ||| 262144, level := m.level,
        trace := m.trace ++
          [Event.load GPIO_FSEL1 m.fsel1, Event.store GPIO_FSEL1 (m.fsel1 ||| 262144)] } := by
  simp [kmain_fsel, load, store]

theorem kmain_clr_eq (rd : Nat → Nat) (m : Machine) :
    kmain_clr rd m =
      { fsel1 := m.fsel1,
        level := m.level ^^^ (m.level &&& (rd m.trace.length ||| 65536)),
        trace := m.trace ++
          [Event.load GPIO_CLR0 (rd m.trace.length),
           Event.store GPIO_CLR0 (rd m.trace.length ||| 65536)] } := by
  have h1 : GPIO_CLR0 ≠ GPIO_FSEL1 := by decide
  have h2 : GPIO_CLR0 ≠ GPIO_SET0 := by decide
  simp [kmain_clr, load, store, h1, h2]

theorem kmain_set_eq (rd : Nat → Nat) (m : Machine) :
    kmain_set rd m =
      { fsel1 := m.fsel1,
        level := m.level ||| (rd m.trace.length ||| 65536),
        trace := m.trace ++
          [Event.load GPIO_SET0 (rd m.trace.length),
           Event.store GPIO_SET0 (rd m.trace.length ||| 65536)] } := by
  have h1 : GPIO_SET0 ≠ GPIO_FSEL1 := by decide
  simp [kmain_set, load, store, h1]

theorem spin_sleep_us_loop_eq (us : Nat) :
    ∀ (fuel i : Nat) (m : Machine), i ≤ (us * 6) % 2 ^ 32 →
      (us * 6) % 2 ^ 32 - i < fuel →
      spin_sleep_us_loop us fuel i m =
        some { m with trace := m.trace ++ List.replicate ((us * 6) % 2 ^ 32 - i) Event.nop } := by
  intro fuel
  induction fuel with
  | zero => intro i m _ h; omega
  | succ fuel ih =>
    intro i m hi hf
    have hB : (us * 6) % 2 ^ 32 < 2 ^ 32 := Nat.mod_lt _ (by norm_num)
    unfold spin_sleep_us_loop
    by_cases hlt : i < (us * 6) % 2 ^ 32
    · have hmod : (i + 1) % 2 ^ 32 = i + 1 := Nat.mod_eq_of_lt (by omega)
      have hsub : (us * 6) % 2 ^ 32 - i = ((us * 6) % 2 ^ 32 - (i + 1)) + 1 := by omega
      rw [if_pos hlt, hmod, ih (i + 1) (nop m) (by omega) (by omega), hsub,
        List.replicate_succ]
      simp [nop]
    · have hz : (us * 6) % 2 ^ 32 - i = 0 := by omega
      rw [if_neg hlt, hz]
      simp

theorem spin_sleep_us_eq (fuel us : Nat) (m : Machine) (hf : (us * 6) % 2 ^ 32 < fuel) :
    spin_sleep_us fuel us m =
      some { m with trace := m.trace ++ List.replicate ((us * 6) % 2 ^ 32) Event.nop } := by
  have h := spin_sleep_us_loop_eq us fuel 0 m (Nat.zero_le _) (by simpa using hf)
  simpa [spin_sleep_us] using h

theorem spin_sleep_ms_500_eq (fuel : Nat) (m : Machine) (hf : 3000000 < fuel) :
    spin_sleep_ms fuel 500 m =
      some { m with trace := m.trace ++ List.replicate 3000000 Event.nop } := by
  have hb : ((500 * 1000) % 2 ^ 32 * 6) % 2 ^ 32 = 3000000 := by norm_num
  have h := spin_sleep_us_eq fuel ((500 * 1000) % 2 ^ 32) m (by rw [hb]; exact hf)
  rw [hb] at h
  unfold spin_sleep_ms
  exact h

theorem kmain_loop_body_eq (rd : Nat → Nat) (fuel : Nat) (m : Machine) (hf : 3000000 < fuel) :
    kmain_loop_body rd fuel m =
      some { fsel1 := m.fsel1,
             level := (m.level ||| (rd m.trace.length ||| 65536)) ^^^
               ((m.level ||| (rd m.trace.length ||| 65536)) &&&
                 (rd (m.trace.length + 3000002) ||| 65536)),
             trace := m.trace ++
               passEvents (rd m.trace.length) (rd (m.trace.length + 3000002)) } := by
  unfold kmain_loop_body
  rw [spin_sleep_ms_500_eq fuel _ hf]
  simp only [Option.some_bind]
  rw [spin_sleep_ms_500_eq fuel _ hf, kmain_clr_eq, kmain_set_eq]
  simp only [passEvents, List.length_append, List.length_replicate, List.length_cons,
    List.length_nil, List.append_assoc, Nat.add_assoc, Nat.reduceAdd]

theorem kmain_startup_eq (rd : Nat → Nat) (m : Machine) :
    kmain_startup rd m =
      { fsel1 := m.fsel1 ||| 262144,
        level := m.level ^^^ (m.level &&& (rd (m.trace.length + 2) ||| 65536)),
        trace := m.trace ++ startupEvents m.fsel1 (rd (m.trace.length + 2)) } := by
  unfold kmain_startup
  rw [kmain_clr_eq, kmain_fsel_eq]
  simp [startupEvents]

theorem store_clr_level_bit (v : Nat) (m : Machine) (i : Nat) :
    (store GPIO_CLR0 v m).level.testBit i = (m.level.testBit i && !v.testBit i) := by
  have h1 : GPIO_CLR0 ≠ GPIO_FSEL1 := by decide
  have h2 : GPIO_CLR0 ≠ GPIO_SET0 := by decide
  simp only [store, h1, h2, if_false, if_true, Nat.testBit_xor, Nat.testBit_and]
  cases m.level.testBit i <;> cases v.testBit i <;> rfl

theorem store_set_level_bit (v : Nat) (m : Machine) (i : Nat) :
    (store GPIO_SET0 v m).level.testBit i = (m.level.testBit i || v.testBit i) := by
  have h1 : GPIO_SET0 ≠ GPIO_FSEL1 := by decide
  simp only [store, h1, if_false, if_true, Nat.testBit_or]

theorem testBit_or_65536 (r i : Nat) :
    (r ||| 65536).testBit i = (r.testBit i || decide (16 = i)) := by
  have h : (65536 : Nat) = 2 ^ 16 := by norm_num
  rw [Nat.testBit_or, h, Nat.testBit_two_pow]

theorem testBit_or_262144 (r i : Nat) :
    (r ||| 262144).testBit i = (r.testBit i || decide (18 = i)) := by
  have h : (262144 : Nat) = 2 ^ 18 := by norm_num
  rw [Nat.testBit_or, h, Nat.testBit_two_pow]

theorem passEvents_fsel_stores (s c : Nat) :
    (passEvents s c).countP (Event.isStoreTo GPIO_FSEL1) = 0 := by
  have h1 : (GPIO_SET0 == GPIO_FSEL1) = false := by decide
  have h2 : (GPIO_CLR0 == GPIO_FSEL1) = false := by decide
  unfold passEvents
  rw [List.countP_append, List.countP_append, List.countP_append, List.countP_replicate]
  simp only [List.countP_cons, List.countP_nil, Event.isStoreTo, h1, h2]
  simp

theorem passEvents_stores (s c : Nat) :
    (passEvents s c).filter Event.isStore =
      [Event.store GPIO_SET0 (s ||| 65536), Event.store GPIO_CLR0 (c ||| 65536)] := by
  unfold passEvents
  rw [List.filter_append, List.filter_append, List.filter_append, List.filter_replicate]
  simp only [List.filter_cons, List.filter_nil, Event.isStore]
  simp

theorem passEvents_addr (s c : Nat) (e : Event) (a : Nat)
    (he : e ∈ passEvents s c) (ha : e.addr = some a) :
    a = GPIO_SET0 ∨ a = GPIO_CLR0 := by
  unfold passEvents at he
  rw [List.mem_append, List.mem_append, List.mem_append] at he
  rcases he with ((he | he) | he) | he
  · simp only [List.mem_cons, List.mem_singleton, List.not_mem_nil, or_false] at he
    rcases he with rfl | rfl <;> (simp only [Event.addr, Option.some.injEq] at ha; exact Or.inl ha.symm)
  · rw [List.eq_of_mem_replicate he] at ha
    simp [Event.addr] at ha
  · simp only [List.mem_cons, List.mem_singleton, List.not_mem_nil, or_false] at he
    rcases he with rfl | rfl <;> (simp only [Event.addr, Option.some.injEq] at ha; exact Or.inr ha.symm)
  · rw [List.eq_of_mem_replicate he] at ha
    simp [Event.addr] at ha

theorem loopEvents_fsel_stores (ps : List (Nat × Nat)) :
    (loopEvents ps).countP (Event.isStoreTo GPIO_FSEL1) = 0 := by
  induction ps with
  | nil => rfl
  | cons p ps ih => rw [loopEvents, List.countP_append, passEvents_fsel_stores, ih]

theorem loopEvents_addr (ps : List (Nat × Nat)) (e : Event) (a : Nat)
    (he : e ∈ loopEvents ps) (ha : e.addr = some a) :
    a = GPIO_SET0 ∨ a = GPIO_CLR0 := by
  induction ps with
  | nil => simp [loopEvents] at he
  | cons p ps ih =>
    rw [loopEvents, List.mem_append] at he
    rcases he with he | he
    · exact passEvents_addr p.1 p.2 e a he ha
    · exact ih he

theorem kmain_loop_eq (rd : Nat → Nat) (fuel : Nat) (hf : 3000000 < fuel) :
    ∀ (n : Nat) (m : Machine), ∃ (m2 : Machine) (ps : List (Nat × Nat)),
      kmain_loop rd fuel n m = some m2 ∧ ps.length = n ∧
      m2.fsel1 = m.fsel1 ∧ m2.trace = m.trace ++ loopEvents ps := by
  intro n
  induction n with
  | zero => intro m; exact ⟨m, [], rfl, rfl, rfl, by simp [loopEvents]⟩
  | succ n ih =>
    intro m
    obtain ⟨m2, ps, h1, h2, h3, h4⟩ := ih
      { fsel1 := m.fsel1,
        level := (m.level ||| (rd m.trace.length ||| 65536)) ^^^
          ((m.level ||| (rd m.trace.length ||| 65536)) &&&
            (rd (m.trace.length + 3000002) ||| 65536)),
        trace := m.trace ++
          passEvents (rd m.trace.length) (rd (m.trace.length + 3000002)) }
    refine ⟨m2, (rd m.trace.length, rd (m.trace.length + 3000002)) :: ps, ?_, ?_, ?_, ?_⟩
    · rw [kmain_loop, kmain_loop_body_eq rd fuel m hf, Option.some_bind, h1]
    · rw [List.length_cons, h2]
    · rw [h3]
    · rw [h4, loopEvents, List.append_assoc]

/-! ## Claims -/

/-- C1, evaluated at a failing input: when the function field of pin 16 holds
binary 100 before startup (register word 0x00100000), the configure statement
of kmain leaves binary 101 in the field, not the output code 001. -/
theorem kmain_fsel_field_at_0x00100000 :
    field16 (Machine.fsel1 ⟨0x00100000, 0, []⟩) = 4 ∧
    kmain_fsel (fun _ => 0) ⟨0x00100000, 0, []⟩ =
      ⟨0x00140000, 0,
        [Event.load GPIO_FSEL1 0x00100000, Event.store GPIO_FSEL1 0x00140000]⟩ ∧
    field16 (kmain_fsel (fun _ => 0) ⟨0x00100000, 0, []⟩).fsel1 = 5 ∧
    field16 (kmain_startup (fun _ => 0) ⟨0x00100000, 0, []⟩).fsel1 = 5 := by
  decide

/-- C2: the word the configure statement of kmain stores back to FSEL1 agrees
with the word it loaded at every bit position outside 18..20, the field of
pin 16, which starts at bit 3 * (16 mod 10) = 18. -/
theorem kmain_fsel_field_isolation (rd : Nat → Nat) (m : Machine) (i : Nat)
    (hi : i < 18 ∨ 20 < i) :
    3 * (16 % 10) = 18 ∧
    (kmain_fsel rd m).trace = m.trace ++
      [Event.load GPIO_FSEL1 m.fsel1, Event.store GPIO_FSEL1 (kmain_fsel rd m).fsel1] ∧
    (kmain_fsel rd m).fsel1.testBit i = m.fsel1.testBit i := by
  refine ⟨by norm_num, ?_, ?_⟩
  · rw [kmain_fsel_eq]
  · rw [kmain_fsel_eq]
    show (m.fsel1 ||| 262144).testBit i = m.fsel1.testBit i
    have hne : ¬ (18 = i) := by omega
    rw [testBit_or_262144, decide_eq_false hne, Bool.or_false]

theorem kmain_fsel_field_isolation_witness :
    (17 < 18 ∨ 20 < 17) ∧
    (3 * (16 % 10) = 18 ∧
      (kmain_fsel (fun _ => 0) ⟨0xFFFFFFFF, 0, []⟩).trace = [] ++
        [Event.load GPIO_FSEL1 0xFFFFFFFF,
         Event.store GPIO_FSEL1 (kmain_fsel (fun _ => 0) ⟨0xFFFFFFFF, 0, []⟩).fsel1] ∧
      (kmain_fsel (fun _ => 0) ⟨0xFFFFFFFF, 0, []⟩).fsel1.testBit 17 =
        Nat.testBit 0xFFFFFFFF 17) :=
  ⟨by decide, kmain_fsel_field_isolation (fun _ => 0) ⟨0xFFFFFFFF, 0, []⟩ 17 (by decide)⟩

/-- C3, evaluated at a failing input: when the load half of the set statement
returns 1, the word stored to the set register is 65537, whose bit 0 is
asserted besides bit 16, and pin 0 is driven high along with pin 16; when the
load half of the clear statement returns 1 while pin 0 is high, the word stored
to the clear register is 65537 as well and pin 0 is driven low. -/
theorem kmain_set_asserts_bit_0 :
    kmain_set (fun _ => 1) ⟨0, 0, []⟩ =
      ⟨0, 65537, [Event.load GPIO_SET0 1, Event.store GPIO_SET0 65537]⟩ ∧
    Nat.testBit 65537 16 = true ∧ Nat.testBit 65537 0 = true ∧
    (kmain_set (fun _ => 1) ⟨0, 0, []⟩).level.testBit 0 = true ∧
    kmain_clr (fun _ => 1) ⟨0, 1, []⟩ =
      ⟨0, 0, [Event.load GPIO_CLR0 1, Event.store GPIO_CLR0 65537]⟩ ∧
    (Machine.level ⟨0, 1, []⟩).testBit 0 = true ∧
    (kmain_clr (fun _ => 1) ⟨0, 1, []⟩).level.testBit 0 = false := by
  decide

/-- C4, counterexample: spin_sleep_us(715827883) runs the nop loop twice while
spin_sleep_us(1) runs it six times, although 715827883 >= 1 and both fit in 32
bits: the loop bound us * 6 wraps modulo 2^32. -/
theorem spin_sleep_us_not_monotone :
    (1 : Nat) ≤ 715827883 ∧ 715827883 < 2 ^ 32 ∧
    spin_sleep_us 8 715827883 ⟨0, 0, []⟩ = some ⟨0, 0, [Event.nop, Event.nop]⟩ ∧
    spin_sleep_us 8 1 ⟨0, 0, []⟩ =
      some ⟨0, 0, [Event.nop, Event.nop, Event.nop, Event.nop, Event.nop, Event.nop]⟩ ∧
    nops [Event.nop, Event.nop] <
      nops [Event.nop, Event.nop, Event.nop, Event.nop, Event.nop, Event.nop] := by
  decide

/-- C4, amended: for a >= b where a * 6 does not wrap (a * 6 < 2^32, that is
a <= 715827882), spin_sleep_us(a) and spin_sleep_us(b) both return, after a * 6
and b * 6 nop executions, and the former count is not smaller. -/
theorem spin_sleep_us_monotone (a b fuel : Nat) (m : Machine)
    (hab : b ≤ a) (ha : a * 6 < 2 ^ 32) (hf : a * 6 < fuel) :
    ∃ ma mb : Machine,
      spin_sleep_us fuel a m = some ma ∧ spin_sleep_us fuel b m = some mb ∧
      nops ma.trace = nops m.trace + a * 6 ∧ nops mb.trace = nops m.trace + b * 6 ∧
      nops mb.trace ≤ nops ma.trace := by
  have hb : b * 6 < 2 ^ 32 := by omega
  have hma : (a * 6) % 2 ^ 32 = a * 6 := Nat.mod_eq_of_lt ha
  have hmb : (b * 6) % 2 ^ 32 = b * 6 := Nat.mod_eq_of_lt hb
  refine ⟨_, _, spin_sleep_us_eq fuel a m (by omega), spin_sleep_us_eq fuel b m (by omega),
    ?_, ?_, ?_⟩
  · simp only [nops, List.count_append, List.count_replicate, hma]; simp
  · simp only [nops, List.count_append, List.count_replicate, hmb]; simp
  · simp only [nops, List.count_append, List.count_replicate, hma, hmb]; simp; omega

theorem spin_sleep_us_monotone_witness :
    (1 ≤ 2 ∧ 2 * 6 < 2 ^ 32 ∧ 2 * 6 < 13) ∧
    ∃ ma mb : Machine,
      spin_sleep_us 13 2 ⟨0, 0, []⟩ = some ma ∧ spin_sleep_us 13 1 ⟨0, 0, []⟩ = some mb ∧
      nops ma.trace = nops (Machine.trace ⟨0, 0, []⟩) + 2 * 6 ∧
      nops mb.trace = nops (Machine.trace ⟨0, 0, []⟩) + 1 * 6 ∧
      nops mb.trace ≤ nops ma.trace :=
  ⟨⟨by decide, by decide, by decide⟩,
    spin_sleep_us_monotone 2 1 13 ⟨0, 0, []⟩ (by decide) (by decide) (by decide)⟩

/-- C5: with enough fuel for the delays, one pass of the while loop of kmain
returns and appends exactly these events, in this order: load and store on the
set register (stored word has bit 16 set), 3,000,000 nops, load and store on
the clear register (stored word has bit 16 set), 3,000,000 nops. The only
stores among them are the set-register store followed by the clear-register
store; spin_sleep_ms(500) is spin_sleep_us(500 * 1000) and appends exactly
3,000,000 nops. -/
theorem kmain_loop_body_events (rd : Nat → Nat) (fuel : Nat) (m : Machine)
    (hf : 3000000 < fuel) :
    ∃ (m2 : Machine) (s c : Nat),
      kmain_loop_body rd fuel m = some m2 ∧
      m2.trace = m.trace ++
        ([Event.load GPIO_SET0 s, Event.store GPIO_SET0 (s ||| (1 <<< 16))]
          ++ List.replicate 3000000 Event.nop
          ++ [Event.load GPIO_CLR0 c, Event.store GPIO_CLR0 (c ||| (1 <<< 16))]
          ++ List.replicate 3000000 Event.nop) ∧
      (s ||| (1 <<< 16)).testBit 16 = true ∧ (c ||| (1 <<< 16)).testBit 16 = true ∧
      (List.drop m.trace.length m2.trace).filter Event.isStore =
        [Event.store GPIO_SET0 (s ||| (1 <<< 16)), Event.store GPIO_CLR0 (c ||| (1 <<< 16))] ∧
      (∀ x : Machine, spin_sleep_ms fuel 500 x = spin_sleep_us fuel (500 * 1000) x) ∧
      (∀ x : Machine, spin_sleep_ms fuel 500 x =
        some { x with trace := x.trace ++ List.replicate 3000000 Event.nop }) ∧
      (∀ x y : Machine, spin_sleep_ms fuel 500 x = some y → nops y.trace = nops x.trace + 3000000) := by
  have hs : (1 : Nat) <<< 16 = 65536 := by decide
  refine ⟨_, rd m.trace.length, rd (m.trace.length + 3000002),
    kmain_loop_body_eq rd fuel m hf, ?_, ?_, ?_, ?_, ?_, ?_, ?_⟩
  · rw [hs]; rfl
  · rw [hs, testBit_or_65536]; simp
  · rw [hs, testBit_or_65536]; simp
  · rw [hs]
    show (List.drop m.trace.length (m.trace ++ passEvents _ _)).filter Event.isStore = _
    rw [List.drop_left, passEvents_stores]
  · intro x; rfl
  · intro x; exact spin_sleep_ms_500_eq fuel x hf
  · intro x y hxy
    rw [spin_sleep_ms_500_eq fuel x hf] at hxy
    cases hxy
    simp only [nops, List.count_append, List.count_replicate]
    simp

theorem kmain_loop_body_events_witness :
    3000000 < 3000001 ∧
    ∃ (m2 : Machine) (s c : Nat),
      kmain_loop_body (fun _ => 0) 3000001 ⟨0, 0, []⟩ = some m2 ∧
      m2.trace = (Machine.trace ⟨0, 0, []⟩) ++
        ([Event.load GPIO_SET0 s, Event.store GPIO_SET0 (s ||| (1 <<< 16))]
          ++ List.replicate 3000000 Event.nop
          ++ [Event.load GPIO_CLR0 c, Event.store GPIO_CLR0 (c ||| (1 <<< 16))]
          ++ List.replicate 3000000 Event.nop) ∧
      (s ||| (1 <<< 16)).testBit 16 = true ∧ (c ||| (1 <<< 16)).testBit 16 = true ∧
      (List.drop (Machine.trace ⟨0, 0, []⟩).length m2.trace).filter Event.isStore =
        [Event.store GPIO_SET0 (s ||| (1 <<< 16)), Event.store GPIO_CLR0 (c ||| (1 <<< 16))] ∧
      (∀ x : Machine, spin_sleep_ms 3000001 500 x = spin_sleep_us 3000001 (500 * 1000) x) ∧
      (∀ x : Machine, spin_sleep_ms 3000001 500 x =
        some { x with trace := x.trace ++ List.replicate 3000000 Event.nop }) ∧
      (∀ x y : Machine, spin_sleep_ms 3000001 500 x = some y →
        nops y.trace = nops x.trace + 3000000) :=
  ⟨by decide, kmain_loop_body_events (fun _ => 0) 3000001 ⟨0, 0, []⟩ (by decide)⟩

/-- C6: running the configure statement of kmain a second time leaves FSEL1
holding the same word as after the first run. -/
theorem kmain_fsel_idempotent (rd : Nat → Nat) (m : Machine) :
    (kmain_fsel rd (kmain_fsel rd m)).fsel1 = (kmain_fsel rd m).fsel1 ∧
    (kmain_fsel rd m).fsel1 = m.fsel1 ||| (0b001 <<< 18) := by
  have hs : (0b001 : Nat) <<< 18 = 262144 := by decide
  rw [kmain_fsel_eq, kmain_fsel_eq, hs]
  exact ⟨by simp [Nat.or_assoc], rfl⟩

/-- C7: the startup sequence of kmain performs, in order, the FSEL1 load, the
FSEL1 store, a load from the clear register and a store to the clear register
whose word has bit 16 set; it stores nothing to the set register; and under the
modelled set/clear semantics pin 16 is low when the loop is entered, whatever
the initial register state and whatever the loads return. -/
theorem kmain_startup_pin16_low (rd : Nat → Nat) (m : Machine) :
    ∃ r : Nat,
      (kmain_startup rd m).trace = m.trace ++
        [Event.load GPIO_FSEL1 m.fsel1, Event.store GPIO_FSEL1 (m.fsel1 ||| (0b001 <<< 18)),
         Event.load GPIO_CLR0 r, Event.store GPIO_CLR0 (r ||| (1 <<< 16))] ∧
      (r ||| (1 <<< 16)).testBit 16 = true ∧
      (List.drop m.trace.length (kmain_startup rd m).trace).countP
        (Event.isStoreTo GPIO_SET0) = 0 ∧
      (kmain_startup rd m).level.testBit 16 = false := by
  have hs : (1 : Nat) <<< 16 = 65536 := by decide
  have hs2 : (0b001 : Nat) <<< 18 = 262144 := by decide
  have h1 : (GPIO_FSEL1 == GPIO_SET0) = false := by decide
  have h2 : (GPIO_CLR0 == GPIO_SET0) = false := by decide
  refine ⟨rd (m.trace.length + 2), ?_, ?_, ?_, ?_⟩
  · rw [kmain_startup_eq, hs, hs2]; rfl
  · rw [hs, testBit_or_65536]; simp
  · rw [kmain_startup_eq]
    show (List.drop m.trace.length (m.trace ++ startupEvents _ _)).countP _ = 0
    rw [List.drop_left]
    simp [startupEvents, List.countP_cons, Event.isStoreTo, h1, h2]
  · rw [kmain_startup_eq]
    show (m.level ^^^ (m.level &&& (rd (m.trace.length + 2) ||| 65536))).testBit 16 = false
    rw [Nat.testBit_xor, Nat.testBit_and, testBit_or_65536]
    cases m.level.testBit 16 <;> simp

/-- C8, counterexample: spin_sleep_us(2147483648) returns without executing a
single nop, although the mathematical product 2147483648 * 6 is 12884901888. -/
theorem spin_sleep_us_wraps_to_zero :
    (2147483648 : Nat) < 2 ^ 32 ∧
    spin_sleep_us 1 2147483648 ⟨0, 0, []⟩ = some ⟨0, 0, []⟩ ∧
    nops (Machine.trace ⟨0, 0, []⟩) = 0 ∧ 2147483648 * 6 = 12884901888 := by
  decide

/-- C8, amended: for every us, spin_sleep_us(us) returns (any fuel above the
loop bound suffices, so fuel 2^32 always does) after exactly (us * 6) mod 2^32
executions of nop, the C unsigned product; this equals the mathematical
product us * 6 exactly when us <= 715827882. -/
theorem spin_sleep_us_iterations (us fuel : Nat) (m : Machine)
    (hf : (us * 6) % 2 ^ 32 < fuel) :
    spin_sleep_us fuel us m =
      some { m with trace := m.trace ++ List.replicate ((us * 6) % 2 ^ 32) Event.nop } ∧
    nops (m.trace ++ List.replicate ((us * 6) % 2 ^ 32) Event.nop) =
      nops m.trace + (us * 6) % 2 ^ 32 ∧
    spin_sleep_us (2 ^ 32) us m = spin_sleep_us fuel us m ∧
    ((us * 6) % 2 ^ 32 = us * 6 ↔ us ≤ 715827882) := by
  have hB : (us * 6) % 2 ^ 32 < 2 ^ 32 := Nat.mod_lt _ (by norm_num)
  refine ⟨spin_sleep_us_eq fuel us m hf, ?_, ?_, ?_⟩
  · simp only [nops, List.count_append, List.count_replicate]; simp
  · rw [spin_sleep_us_eq fuel us m hf, spin_sleep_us_eq (2 ^ 32) us m hB]
  · constructor
    · intro h; omega
    · intro h; exact Nat.mod_eq_of_lt (by omega)

theorem spin_sleep_us_iterations_witness :
    ((1 * 6) % 2 ^ 32 < 7) ∧
    (spin_sleep_us 7 1 ⟨0, 0, []⟩ =
      some { (⟨0, 0, []⟩ : Machine) with
        trace := (Machine.trace ⟨0, 0, []⟩) ++ List.replicate ((1 * 6) % 2 ^ 32) Event.nop } ∧
    nops ((Machine.trace ⟨0, 0, []⟩) ++ List.replicate ((1 * 6) % 2 ^ 32) Event.nop) =
      nops (Machine.trace ⟨0, 0, []⟩) + (1 * 6) % 2 ^ 32 ∧
    spin_sleep_us (2 ^ 32) 1 ⟨0, 0, []⟩ = spin_sleep_us 7 1 ⟨0, 0, []⟩ ∧
    ((1 * 6) % 2 ^ 32 = 1 * 6 ↔ 1 ≤ 715827882)) :=
  ⟨by decide, spin_sleep_us_iterations 1 7 ⟨0, 0, []⟩ (by decide)⟩

theorem startupEvents_addr (v r : Nat) (e : Event) (a : Nat)
    (he : e ∈ startupEvents v r) (ha : e.addr = some a) :
    a = GPIO_FSEL1 ∨ a = GPIO_CLR0 := by
  simp only [startupEvents, List.mem_cons, List.mem_singleton, List.not_mem_nil,
    or_false] at he
  rcases he with rfl | rfl | rfl | rfl <;>
    simp only [Event.addr, Option.some.injEq] at ha
  · exact Or.inl ha.symm
  · exact Or.inl ha.symm
  · exact Or.inr ha.symm
  · exact Or.inr ha.symm

theorem kmain_eq (rd : Nat → Nat) (fuel n : Nat) (m : Machine) (hf : 3000000 < fuel) :
    ∃ (m2 : Machine) (ps : List (Nat × Nat)),
      kmain rd fuel n m = some m2 ∧ ps.length = n ∧
      m2.fsel1 = (kmain_startup rd m).fsel1 ∧
      m2.trace = m.trace ++
        (startupEvents m.fsel1 (rd (m.trace.length + 2)) ++ loopEvents ps) := by
  obtain ⟨m2, ps, h1, h2, h3, h4⟩ := kmain_loop_eq rd fuel hf n (kmain_startup rd m)
  refine ⟨m2, ps, h1, h2, h3, ?_⟩
  rw [h4, kmain_startup_eq, List.append_assoc]

theorem kmain_loop_succ (rd : Nat → Nat) (fuel : Nat) :
    ∀ (n : Nat) (m : Machine),
      kmain_loop rd fuel (n + 1) m = (kmain_loop rd fuel n m).bind (kmain_loop_body rd fuel) := by
  intro n
  induction n with
  | zero =>
    intro m
    have h0 : kmain_loop rd fuel 0 = some := by funext x; rfl
    show (kmain_loop_body rd fuel m).bind (kmain_loop rd fuel 0) =
      (some m).bind (kmain_loop_body rd fuel)
    rw [h0, Option.bind_some, Option.some_bind]
  | succ n ih =>
    intro m
    have hfun : kmain_loop rd fuel (n + 1) =
        fun x => (kmain_loop rd fuel n x).bind (kmain_loop_body rd fuel) := by
      funext x; exact ih x
    show (kmain_loop_body rd fuel m).bind (kmain_loop rd fuel (n + 1)) =
      ((kmain_loop_body rd fuel m).bind (kmain_loop rd fuel n)).bind (kmain_loop_body rd fuel)
    rw [hfun, Option.bind_assoc]

/-- C9: GPIO_BASE is 0x3F200000; the register pointers are base + 0x04 =
0x3F200004, base + 0x1C = 0x3F20001C and base + 0x28 = 0x3F200028, pairwise
distinct and 4-byte aligned; and every load or store kmain performs, through
startup and any number of loop passes, targets one of these three addresses. -/
theorem kmain_memory_map (rd : Nat → Nat) (fuel n : Nat) (m : Machine)
    (hf : 3000000 < fuel) :
    GPIO_BASE = 0x3F200000 ∧
    GPIO_FSEL1 = GPIO_BASE + 0x04 ∧ GPIO_FSEL1 = 0x3F200004 ∧
    GPIO_SET0 = GPIO_BASE + 0x1C ∧ GPIO_SET0 = 0x3F20001C ∧
    GPIO_CLR0 = GPIO_BASE + 0x28 ∧ GPIO_CLR0 = 0x3F200028 ∧
    GPIO_FSEL1 ≠ GPIO_SET0 ∧ GPIO_FSEL1 ≠ GPIO_CLR0 ∧ GPIO_SET0 ≠ GPIO_CLR0 ∧
    GPIO_FSEL1 % 4 = 0 ∧ GPIO_SET0 % 4 = 0 ∧ GPIO_CLR0 % 4 = 0 ∧
    ∃ m2 : Machine, kmain rd fuel n m = some m2 ∧
      ∀ (e : Event) (a : Nat), e ∈ List.drop m.trace.length m2.trace → e.addr = some a →
        a = GPIO_FSEL1 ∨ a = GPIO_SET0 ∨ a = GPIO_CLR0 := by
  refine ⟨by decide, by decide, by decide, by decide, by decide, by decide, by decide,
    by decide, by decide, by decide, by decide, by decide, by decide, ?_⟩
  obtain ⟨m2, ps, h1, _, _, h4⟩ := kmain_eq rd fuel n m hf
  refine ⟨m2, h1, ?_⟩
  intro e a he ha
  rw [h4, List.drop_left, List.mem_append] at he
  rcases he with he | he
  · rcases startupEvents_addr _ _ e a he ha with h | h
    · exact Or.inl h
    · exact Or.inr (Or.inr h)
  · rcases loopEvents_addr ps e a he ha with h | h
    · exact Or.inr (Or.inl h)
    · exact Or.inr (Or.inr h)

theorem kmain_memory_map_witness :
    3000000 < 3000001 ∧
    (GPIO_BASE = 0x3F200000 ∧
    GPIO_FSEL1 = GPIO_BASE + 0x04 ∧ GPIO_FSEL1 = 0x3F200004 ∧
    GPIO_SET0 = GPIO_BASE + 0x1C ∧ GPIO_SET0 = 0x3F20001C ∧
    GPIO_CLR0 = GPIO_BASE + 0x28 ∧ GPIO_CLR0 = 0x3F200028 ∧
    GPIO_FSEL1 ≠ GPIO_SET0 ∧ GPIO_FSEL1 ≠ GPIO_CLR0 ∧ GPIO_SET0 ≠ GPIO_CLR0 ∧
    GPIO_FSEL1 % 4 = 0 ∧ GPIO_SET0 % 4 = 0 ∧ GPIO_CLR0 % 4 = 0 ∧
    ∃ m2 : Machine, kmain (fun _ => 0) 3000001 2 ⟨0, 0, []⟩ = some m2 ∧
      ∀ (e : Event) (a : Nat),
        e ∈ List.drop (Machine.trace ⟨0, 0, []⟩).length m2.trace → e.addr = some a →
        a = GPIO_FSEL1 ∨ a = GPIO_SET0 ∨ a = GPIO_CLR0) :=
  ⟨by decide, kmain_memory_map (fun _ => 0) 3000001 2 ⟨0, 0, []⟩ (by decide)⟩

/-- C10: through startup and any number n of loop passes, kmain returns a state
whose new events are the startup events followed by n loop passes. FSEL1 is
stored exactly once, as the second startup event, before the loop: the loop
events contain no FSEL1 store, so no initial segment of the events contains
more than one and every initial segment of length at least 2 contains exactly
one. FSEL1 after n passes holds the word it held at loop entry, and the stores
of each loop pass are exactly two, to the set register and then to the clear
register. -/
theorem kmain_fsel1_lifecycle (rd : Nat → Nat) (fuel n : Nat) (m : Machine)
    (hf : 3000000 < fuel) :
    ∃ (m2 : Machine) (r : Nat) (ps : List (Nat × Nat)),
      kmain rd fuel n m = some m2 ∧ ps.length = n ∧
      List.drop m.trace.length m2.trace = startupEvents m.fsel1 r ++ loopEvents ps ∧
      (startupEvents m.fsel1 r).filter (Event.isStoreTo GPIO_FSEL1) =
        [Event.store GPIO_FSEL1 (m.fsel1 ||| (0b001 <<< 18))] ∧
      (List.take 2 (startupEvents m.fsel1 r)).countP (Event.isStoreTo GPIO_FSEL1) = 1 ∧
      (loopEvents ps).countP (Event.isStoreTo GPIO_FSEL1) = 0 ∧
      (∀ k : Nat,
        (List.take k (List.drop m.trace.length m2.trace)).countP
          (Event.isStoreTo GPIO_FSEL1) ≤ 1) ∧
      (∀ k : Nat, 2 ≤ k →
        (List.take k (List.drop m.trace.length m2.trace)).countP
          (Event.isStoreTo GPIO_FSEL1) = 1) ∧
      m2.fsel1 = (kmain_startup rd m).fsel1 ∧
      (∀ k : Nat, ∃ (mk mk2 : Machine) (s c : Nat),
        kmain rd fuel k m = some mk ∧ kmain_loop_body rd fuel mk = some mk2 ∧
        kmain rd fuel (k + 1) m = some mk2 ∧
        mk.fsel1 = (kmain_startup rd m).fsel1 ∧ mk2.fsel1 = mk.fsel1 ∧
        (List.drop mk.trace.length mk2.trace).filter Event.isStore =
          [Event.store GPIO_SET0 (s ||| (1 <<< 16)),
           Event.store GPIO_CLR0 (c ||| (1 <<< 16))]) := by
  have hs : (1 : Nat) <<< 16 = 65536 := by decide
  have hs2 : (0b001 : Nat) <<< 18 = 262144 := by decide
  have h1 : (GPIO_CLR0 == GPIO_FSEL1) = false := by decide
  obtain ⟨m2, ps, hk, hlen, hfs, htr⟩ := kmain_eq rd fuel n m hf
  have hdrop : List.drop m.trace.length m2.trace =
      startupEvents m.fsel1 (rd (m.trace.length + 2)) ++ loopEvents ps := by
    rw [htr, List.drop_left]
  have hstart : (startupEvents m.fsel1 (rd (m.trace.length + 2))).countP
      (Event.isStoreTo GPIO_FSEL1) = 1 := by
    simp [startupEvents, List.countP_cons, Event.isStoreTo, h1]
  have htotal : (startupEvents m.fsel1 (rd (m.trace.length + 2)) ++ loopEvents ps).countP
      (Event.isStoreTo GPIO_FSEL1) = 1 := by
    rw [List.countP_append, hstart, loopEvents_fsel_stores]
  have hle : ∀ k : Nat,
      (List.take k (startupEvents m.fsel1 (rd (m.trace.length + 2)) ++ loopEvents ps)).countP
        (Event.isStoreTo GPIO_FSEL1) ≤ 1 := by
    intro k
    rw [← htotal]
    exact List.Sublist.countP_le _ (List.take_sublist _ _)
  have hge : ∀ k : Nat, 2 ≤ k →
      1 ≤ (List.take k (startupEvents m.fsel1 (rd (m.trace.length + 2)) ++
        loopEvents ps)).countP (Event.isStoreTo GPIO_FSEL1) := by
    intro k hk2
    obtain ⟨j, rfl⟩ : ∃ j, k = j + 2 := ⟨k - 2, by omega⟩
    simp [startupEvents, List.countP_cons, Event.isStoreTo]
  refine ⟨m2, rd (m.trace.length + 2), ps, hk, hlen, hdrop, ?_, ?_,
    loopEvents_fsel_stores ps, ?_, ?_, hfs, ?_⟩
  · rw [hs2]
    simp [startupEvents, List.filter_cons, Event.isStoreTo, h1]
  · simp [startupEvents, List.countP_cons, Event.isStoreTo]
  · intro k; rw [hdrop]; exact hle k
  · intro k hk2; rw [hdrop]; exact Nat.le_antisymm (hle k) (hge k hk2)
  · intro k
    obtain ⟨mk, _, hk1, _, hk3, _⟩ := kmain_eq rd fuel k m hf
    refine ⟨mk, _, rd mk.trace.length, rd (mk.trace.length + 3000002), hk1,
      kmain_loop_body_eq rd fuel mk hf, ?_, hk3, rfl, ?_⟩
    · unfold kmain at hk1 ⊢
      rw [kmain_loop_succ, hk1, Option.some_bind, kmain_loop_body_eq rd fuel mk hf]
    · rw [hs]
      show (List.drop mk.trace.length (mk.trace ++ passEvents _ _)).filter Event.isStore = _
      rw [List.drop_left, passEvents_stores]

theorem kmain_fsel1_lifecycle_witness :
    3000000 < 3000001 ∧
    ∃ (m2 : Machine) (r : Nat) (ps : List (Nat × Nat)),
      kmain (fun _ => 0) 3000001 3 ⟨7, 0, []⟩ = some m2 ∧ ps.length = 3 ∧
      List.drop (Machine.trace ⟨7, 0, []⟩).length m2.trace =
        startupEvents (Machine.fsel1 ⟨7, 0, []⟩) r ++ loopEvents ps ∧
      (startupEvents (Machine.fsel1 ⟨7, 0, []⟩) r).filter (Event.isStoreTo GPIO_FSEL1) =
        [Event.store GPIO_FSEL1 ((Machine.fsel1 ⟨7, 0, []⟩) ||| (0b001 <<< 18))] ∧
      (List.take 2 (startupEvents (Machine.fsel1 ⟨7, 0, []⟩) r)).countP
        (Event.isStoreTo GPIO_FSEL1) = 1 ∧
      (loopEvents ps).countP (Event.isStoreTo GPIO_FSEL1) = 0 ∧
      (∀ k : Nat,
        (List.take k (List.drop (Machine.trace ⟨7, 0, []⟩).length m2.trace)).countP
          (Event.isStoreTo GPIO_FSEL1) ≤ 1) ∧
      (∀ k : Nat, 2 ≤ k →
        (List.take k (List.drop (Machine.trace ⟨7, 0, []⟩).length m2.trace)).countP
          (Event.isStoreTo GPIO_FSEL1) = 1) ∧
      m2.fsel1 = (kmain_startup (fun _ => 0) ⟨7, 0, []⟩).fsel1 ∧
      (∀ k : Nat, ∃ (mk mk2 : Machine) (s c : Nat),
        kmain (fun _ => 0) 3000001 k ⟨7, 0, []⟩ = some mk ∧
        kmain_loop_body (fun _ => 0) 3000001 mk = some mk2 ∧
        kmain (fun _ => 0) 3000001 (k + 1) ⟨7, 0, []⟩ = some mk2 ∧
        mk.fsel1 = (kmain_startup (fun _ => 0) ⟨7, 0, []⟩).fsel1 ∧ mk2.fsel1 = mk.fsel1 ∧
        (List.drop mk.trace.length mk2.trace).filter Event.isStore =
          [Event.store GPIO_SET0 (s ||| (1 <<< 16)),
           Event.store GPIO_CLR0 (c ||| (1 <<< 16))]) :=
  ⟨by decide, kmain_fsel1_lifecycle (fun _ => 0) 3000001 3 ⟨7, 0, []⟩ (by decide)⟩

end Blinky
